import Mathlib

/-!
Shallow embedding of the zexe circuit-gadget layer:
the `R1CSVar` constant test (`r1cs-std/src/lib.rs`), the `CurveVar`
scalar-multiplication family (`r1cs-std/src/groups/mod.rs`), the
`PairingVar` operations (`r1cs-std/src/pairing/mod.rs`), the Pedersen CRH
gadget (`crypto-primitives/src/crh/pedersen/constraints.rs`) and the
Groth16 verifier gadget
(`crypto-primitives/src/nizk/groth16/constraints.rs`).

Gadget values are modelled by their value-level denotation: a circuit
`Boolean` is a `Bool`, a curve-point variable is an element of an
abstract carrier type, and the abstract trait operations (`zero`, `add`,
`double_in_place`, `prepare_g1`, `miller_loop`, ...) are supplied as
explicit function parameters, so every theorem quantifies over all
interpretations of the underlying curve and pairing arithmetic.
Fallible Rust paths (`assert!`, out-of-bounds indexing) are modelled
with `Option`; the unconditional error placeholder returns `Except`.
-/

namespace Zexe

/-- The error type of `r1cs_core::SynthesisError`; only the variant used
by the embedded code is needed. -/
inductive SynthesisError where
  | assignmentMissing
  deriving DecidableEq, Repr

/-- `r1cs_core::ConstraintSystemRef`: either the distinguished "no
system" sentinel (`ConstraintSystemRef::None`) or a handle to an actual
constraint system, modelled by a numeric identifier. -/
inductive ConstraintSystemRef where
  | noSystem
  | cs (handle : Nat)
  deriving DecidableEq, Repr

/-- `R1CSVar::is_constant` from `r1cs-std/src/lib.rs` (lines 99-103):
`self.cs().map_or(true, |cs| cs == ConstraintSystemRef::None)`.
The argument is the result of the value's `cs()` query. -/
def is_constant (o : Option ConstraintSystemRef) : Bool :=
  match o with
  | Option.none => true
  | Option.some c => c == ConstraintSystemRef.noSystem

/-- The abstract operations a `CurveVar` implementation supplies:
`zero`, group addition (`+`), and `double_in_place`.  `Boolean.select`
on concrete values is `if b then t else e` and is inlined where used. -/
structure CurveOps (G : Type) where
  zero : G
  add : G → G → G
  double : G → G

/-- Loop body of `CurveVar::mul_bits` (`r1cs-std/src/groups/mod.rs`
lines 84-91): running `power` and `result`; at each bit,
`new_encoded = result + power`, `result = bit.select(new_encoded, result)`,
then `power.double_in_place()`. -/
def mulBitsAux {G : Type} (ops : CurveOps G) : G → G → List Bool → G
  | _power, result, [] => result
  | power, result, b :: bs =>
      mulBitsAux ops (ops.double power) (if b then ops.add result power else result) bs

/-- `CurveVar::mul_bits` (`r1cs-std/src/groups/mod.rs` lines 80-92):
double-and-add over a little-endian bit sequence, starting from
`power = self` and `result = zero`. -/
def mulBits {G : Type} (ops : CurveOps G) (p : G) (bits : List Bool) : G :=
  mulBitsAux ops p ops.zero bits

/-- `CurveVar::precomputed_base_scalar_mul` (`r1cs-std/src/groups/mod.rs`
lines 94-108): folds `(bit, base_power)` pairs into the receiver with
`new_encoded = self + base_power; self = bit.select(new_encoded, self)`. -/
def precomputedBaseScalarMul {G : Type} (ops : CurveOps G) (self : G)
    (scalarBitsWithBasePowers : List (Bool × G)) : G :=
  scalarBitsWithBasePowers.foldl
    (fun s p => if p.1 then ops.add s p.2 else s) self

/-- `CurveVar::precomputed_base_multiscalar_mul`
(`r1cs-std/src/groups/mod.rs` lines 122-139): starting from `zero`,
zips the scalar bit-windows with the base-power tables (each window is
itself zipped with its table) and accumulates with
`precomputed_base_scalar_mul`.  `to_bits` on an input already given as a
bit list is the identity. -/
def precomputedBaseMultiscalarMul {G : Type} (ops : CurveOps G)
    (bases : List (List G)) (scalars : List (List Bool)) : G :=
  (scalars.zip bases).foldl
    (fun result p => precomputedBaseScalarMul ops result (p.1.zip p.2))
    ops.zero

/-- The default implementation of
`CurveVar::precomputed_base_3_bit_signed_digit_scalar_mul`
(`r1cs-std/src/groups/mod.rs` lines 110-120): ignores both arguments and
returns `Err(SynthesisError::AssignmentMissing)`.  The first argument
models `&[B]` with `B: Borrow<[C]>` (per-window base tables), the second
models `&[J]` with `J: Borrow<[I]>, I: Borrow<[Boolean]>`. -/
def precomputedBase3BitSignedDigitScalarMul (G : Type)
    (_bases : List (List G)) (_scalars : List (List (List Bool))) :
    Except SynthesisError G :=
  Except.error SynthesisError.assignmentMissing

/-- The abstract operations a `PairingVar` implementation supplies
(`r1cs-std/src/pairing/mod.rs`), together with the `CurveVar` operations
of the `G1Var` type and `negate` on the `G2Var` type, which the Groth16
gadget uses. -/
structure PairingOps (G1 G2 GT G1P G2P : Type) where
  g1 : CurveOps G1
  g2Neg : G2 → G2
  prepareG1 : G1 → G1P
  prepareG2 : G2 → G2P
  millerLoop : List G1P → List G2P → GT
  finalExp : GT → GT

/-- `PairingVar::pairing` (`r1cs-std/src/pairing/mod.rs` lines 62-68):
`miller_loop(&[p], &[q])` followed by `final_exponentiation`. -/
def pairing {G1 G2 GT G1P G2P : Type} (ops : PairingOps G1 G2 GT G1P G2P)
    (p : G1P) (q : G2P) : GT :=
  ops.finalExp (ops.millerLoop [p] [q])

/-- `ProofVar` (`crypto-primitives/src/nizk/groth16/constraints.rs`
lines 14-23): `{a: G1Var, b: G2Var, c: G1Var}`. -/
structure ProofVar (G1 G2 : Type) where
  a : G1
  b : G2
  c : G1

/-- `VerifyingKeyVar` (`crypto-primitives/src/nizk/groth16/constraints.rs`
lines 30-41). -/
structure VerifyingKeyVar (G1 G2 : Type) where
  alpha_g1 : G1
  beta_g2 : G2
  gamma_g2 : G2
  delta_g2 : G2
  gamma_abc_g1 : List G1

/-- `PreparedVerifyingKeyVar`
(`crypto-primitives/src/nizk/groth16/constraints.rs` lines 71-81). -/
structure PreparedVerifyingKeyVar (G1 GT G2P : Type) where
  alpha_g1_beta_g2 : GT
  gamma_g2_neg_pc : G2P
  delta_g2_neg_pc : G2P
  gamma_abc_g1 : List G1

/-- `VerifyingKeyVar::prepare`
(`crypto-primitives/src/nizk/groth16/constraints.rs` lines 49-63):
prepare alpha and beta, pair them, prepare the negations of gamma and
delta, and keep the `gamma_abc_g1` sequence. -/
def prepare {G1 G2 GT G1P G2P : Type} (ops : PairingOps G1 G2 GT G1P G2P)
    (vk : VerifyingKeyVar G1 G2) : PreparedVerifyingKeyVar G1 GT G2P :=
  let alpha_g1_pc := ops.prepareG1 vk.alpha_g1
  let beta_g2_pc := ops.prepareG2 vk.beta_g2
  let alpha_g1_beta_g2 := pairing ops alpha_g1_pc beta_g2_pc
  let gamma_g2_neg_pc := ops.prepareG2 (ops.g2Neg vk.gamma_g2)
  let delta_g2_neg_pc := ops.prepareG2 (ops.g2Neg vk.delta_g2)
  ⟨alpha_g1_beta_g2, gamma_g2_neg_pc, delta_g2_neg_pc, vk.gamma_abc_g1⟩

/-- The observable effect of the Groth16 verifier gadget: the
`conditional_enforce_equal(lhs, rhs, cond)` constraint it emits. -/
structure EnforcedEq (GT : Type) where
  lhs : GT
  rhs : GT
  cond : Bool
  deriving DecidableEq

/-- The accumulation loop of `conditional_verify_prepared`
(`crypto-primitives/src/nizk/groth16/constraints.rs` lines 132-138):
`for (input, b) in public_inputs.by_ref().zip(gamma_abc_g1.iter().skip(1))`
with `g_ic += b.mul_bits(input.to_bits())` and `input_len += 1`.
Arguments: the tail `gamma_abc_g1[1..]`, the remaining public inputs,
the accumulator `g_ic`, and the running `input_len`.  Returns the final
accumulator, the final `input_len`, and the elements left on the
`public_inputs` iterator after the loop.  Rust's `Iterator::zip` polls
the first iterator first, so when `public_inputs` still has an element
while the key tail is exhausted, that element is consumed by the failed
`zip` step and dropped: the leftover list is the rest *after* it. -/
def gIcLoop {G1 : Type} (ops : CurveOps G1) :
    List G1 → List (List Bool) → G1 → Nat → G1 × Nat × List (List Bool)
  | _, [], gIc, n => (gIc, n, [])
  | [], _ :: restInputs, gIc, n => (gIc, n, restInputs)
  | b :: bs, input :: inputs, gIc, n =>
      gIcLoop ops bs inputs (ops.add gIc (mulBits ops b input)) (n + 1)

/-- `conditional_verify_prepared`
(`crypto-primitives/src/nizk/groth16/constraints.rs` lines 123-166).
Public inputs are given by their little-endian bit sequences
(`to_bits` is the identity on them).  Returns `none` when the code
panics: indexing `gamma_abc_g1[0]` on an empty sequence, or the
`assert!(input_len == pvk.gamma_abc_g1.len() && public_inputs.next().is_none())`
on line 141.  On success, returns the emitted
`test.conditional_enforce_equal(&pvk.alpha_g1_beta_g2, condition)`. -/
def conditionalVerifyPrepared {G1 G2 GT G1P G2P : Type}
    (ops : PairingOps G1 G2 GT G1P G2P)
    (pvk : PreparedVerifyingKeyVar G1 GT G2P)
    (publicInputs : List (List Bool)) (proof : ProofVar G1 G2)
    (condition : Bool) : Option (EnforcedEq GT) :=
  match pvk.gamma_abc_g1 with
  | [] => none
  | g0 :: rest =>
    let r := gIcLoop ops.g1 rest publicInputs g0 1
    if r.2.1 == pvk.gamma_abc_g1.length && r.2.2.isEmpty then
      let g_ic := r.1
      let proof_a_prep := ops.prepareG1 proof.a
      let proof_b_prep := ops.prepareG2 proof.b
      let proof_c_prep := ops.prepareG1 proof.c
      let g_ic_prep := ops.prepareG1 g_ic
      let test_exp := ops.millerLoop [proof_a_prep, g_ic_prep, proof_c_prep]
        [proof_b_prep, pvk.gamma_g2_neg_pc, pvk.delta_g2_neg_pc]
      let test := ops.finalExp test_exp
      some ⟨test, pvk.alpha_g1_beta_g2, condition⟩
    else none

/-- `conditional_verify`
(`crypto-primitives/src/nizk/groth16/constraints.rs` lines 111-121):
derives the prepared key with `vk.prepare()` and delegates to
`conditional_verify_prepared`. -/
def conditionalVerify {G1 G2 GT G1P G2P : Type}
    (ops : PairingOps G1 G2 GT G1P G2P) (vk : VerifyingKeyVar G1 G2)
    (publicInputs : List (List Bool)) (proof : ProofVar G1 G2)
    (condition : Bool) : Option (EnforcedEq GT) :=
  conditionalVerifyPrepared ops (prepare ops vk) publicInputs proof condition

/-- `NIZKVerifierGadget::verify`
(`crypto-primitives/src/nizk/constraints.rs` lines 13-19):
`conditional_verify` with `Boolean::constant(true)`. -/
def verify {G1 G2 GT G1P G2P : Type}
    (ops : PairingOps G1 G2 GT G1P G2P) (vk : VerifyingKeyVar G1 G2)
    (publicInputs : List (List Bool)) (proof : ProofVar G1 G2) :
    Option (EnforcedEq GT) :=
  conditionalVerify ops vk publicInputs proof true

/-- Tags for the abstract pairing-trait calls `prepare` makes, used to
count how many times each precomputation runs. -/
inductive OpEvent where
  | prepG1
  | prepG2
  | pairingOp
  | negOp
  deriving DecidableEq, BEq, Repr

/-- `P::prepare_g1`, instrumented to log the call. -/
def prepareG1M {G1 G2 GT G1P G2P : Type} (ops : PairingOps G1 G2 GT G1P G2P)
    (x : G1) : StateM (List OpEvent) G1P :=
  fun log => (ops.prepareG1 x, log ++ [OpEvent.prepG1])

/-- `P::prepare_g2`, instrumented to log the call. -/
def prepareG2M {G1 G2 GT G1P G2P : Type} (ops : PairingOps G1 G2 GT G1P G2P)
    (x : G2) : StateM (List OpEvent) G2P :=
  fun log => (ops.prepareG2 x, log ++ [OpEvent.prepG2])

/-- `P::pairing`, instrumented to log the call. -/
def pairingM {G1 G2 GT G1P G2P : Type} (ops : PairingOps G1 G2 GT G1P G2P)
    (p : G1P) (q : G2P) : StateM (List OpEvent) GT :=
  fun log => (pairing ops p q, log ++ [OpEvent.pairingOp])

/-- `G2Var::negate`, instrumented to log the call. -/
def negG2M {G1 G2 GT G1P G2P : Type} (ops : PairingOps G1 G2 GT G1P G2P)
    (x : G2) : StateM (List OpEvent) G2 :=
  fun log => (ops.g2Neg x, log ++ [OpEvent.negOp])

/-- `VerifyingKeyVar::prepare`
(`crypto-primitives/src/nizk/groth16/constraints.rs` lines 49-63), the
same call sequence as `prepare` but with each abstract trait call
logged, so the number of precomputations one `prepare` call performs is
observable. -/
def prepareM {G1 G2 GT G1P G2P : Type} (ops : PairingOps G1 G2 GT G1P G2P)
    (vk : VerifyingKeyVar G1 G2) :
    StateM (List OpEvent) (PreparedVerifyingKeyVar G1 GT G2P) := do
  let alpha_g1_pc ← prepareG1M ops vk.alpha_g1
  let beta_g2_pc ← prepareG2M ops vk.beta_g2
  let alpha_g1_beta_g2 ← pairingM ops alpha_g1_pc beta_g2_pc
  let gamma_neg ← negG2M ops vk.gamma_g2
  let gamma_g2_neg_pc ← prepareG2M ops gamma_neg
  let delta_neg ← negG2M ops vk.delta_g2
  let delta_g2_neg_pc ← prepareG2M ops delta_neg
  pure ⟨alpha_g1_beta_g2, gamma_g2_neg_pc, delta_g2_neg_pc, vk.gamma_abc_g1⟩

/-- `CRHGadget::evaluate`
(`crypto-primitives/src/crh/pedersen/constraints.rs` lines 47-69),
parametric in the window constants `W::WINDOW_SIZE` and
`W::NUM_WINDOWS`.  A circuit byte (`UInt8` gadget) is modelled by its
little-endian bit list, so `into_bits_le` is the identity and
`UInt8::constant(0)` is eight `false` bits.  The two `assert_eq!` calls
on lines 59-60 are modelled by returning `none`. -/
def pedersenEvaluate {G : Type} (windowSize numWindows : Nat)
    (ops : CurveOps G) (generators : List (List G))
    (input : List (List Bool)) : Option G :=
  let paddedInput :=
    if input.length * 8 < windowSize * numWindows then
      input ++ List.replicate (windowSize * numWindows / 8 - input.length)
        (List.replicate 8 false)
    else input
  if paddedInput.length * 8 == windowSize * numWindows
      && generators.length == numWindows then
    let inputInBits := paddedInput.flatten
    some (precomputedBaseMultiscalarMul ops generators
      (inputInBits.toChunks windowSize))
  else none

/-- A concrete executable interpretation of the `CurveVar` operations
over the integers, used to evaluate the gadget algorithms on explicit
inputs. -/
def intCurveOps : CurveOps Int :=
  ⟨0, fun x y => x + y, fun x => x + x⟩

/-- A concrete executable interpretation of the `PairingVar` operations
over the integers, used to evaluate the Groth16 gadget on explicit
inputs. -/
def intPairingOps : PairingOps Int Int Int Int Int where
  g1 := intCurveOps
  g2Neg := fun x => -x
  prepareG1 := fun x => x + 1
  prepareG2 := fun x => x + 2
  millerLoop := fun ps qs => ps.sum + 3 * qs.sum
  finalExp := fun x => 5 * x

/-- Concrete example verifying key over the integer interpretation;
its `gamma_abc_g1` sequence has length 2, so exactly one public input
is expected. -/
def vkEx : VerifyingKeyVar Int Int := ⟨1, 2, 3, 4, [5, 7]⟩

/-- Concrete example proof over the integer interpretation. -/
def proofEx : ProofVar Int Int := ⟨1, 2, 3⟩

/-- The prepared form of `vkEx`. -/
def pvkEx : PreparedVerifyingKeyVar Int Int Int := prepare intPairingOps vkEx

/-- The interpretation of the abstract `CurveVar` operations in which a
point variable denotes its underlying native group element: `zero`,
`add` and `double_in_place` denote the group operations. -/
def groupOps (G : Type) [AddCommMonoid G] : CurveOps G :=
  ⟨0, fun x y => x + y, fun x => x + x⟩

/-- The double-and-add reference result the specification describes for
`mul_bits`: the sum, over the positions `i` whose bit is set, of
`2 ^ i` times the base point. -/
def doubleAddRef {G : Type} [AddCommMonoid G] (p : G) (bits : List Bool) : G :=
  ∑ i ∈ Finset.range bits.length, if bits.getD i false then 2 ^ i • p else 0

/-- The public-input accumulator the specification describes for
`conditional_verify_prepared`: start from the constant term
`gamma_abc_g1[0]` and add `gamma_abc_g1[i+1].mul_bits(bits of input i)`
for each public input. -/
def gIcSpec {G1 : Type} (ops : CurveOps G1) (gammaAbc : List G1)
    (inputs : List (List Bool)) : G1 :=
  (List.zipWith (fun b input => mulBits ops b input) gammaAbc.tail inputs).foldl
    ops.add (gammaAbc.headD ops.zero)

/-- The accumulation loop of `conditional_verify_prepared`, on a key
tail and an input list of equal length, folds the per-input
`mul_bits` terms into the accumulator, counts every input, and leaves
the input iterator exhausted. -/
theorem gIcLoop_eq {G1 : Type} (ops : CurveOps G1) :
    ∀ (rest : List G1) (inputs : List (List Bool)) (g : G1) (n : Nat),
      rest.length = inputs.length →
      gIcLoop ops rest inputs g n =
        ((List.zipWith (fun b input => mulBits ops b input) rest inputs).foldl
          ops.add g, n + inputs.length, []) := by
  intro rest
  induction rest with
  | nil =>
    intro inputs g n h
    cases inputs with
    | nil => simp [gIcLoop]
    | cons i is => simp at h
  | cons b bs ih =>
    intro inputs g n h
    cases inputs with
    | nil => simp at h
    | cons i is =>
      have h' : bs.length = is.length := by simpa using h
      simp only [gIcLoop, List.zipWith, List.foldl]
      rw [ih is (ops.add g (mulBits ops b i)) (n + 1) h']
      simp [Nat.add_comm, Nat.add_assoc, Nat.add_left_comm]

/-- In the group interpretation, the `mul_bits` loop started at running
power `q` and accumulator `r` returns `r` plus the double-and-add sum
for base `q`. -/
theorem mulBitsAux_eq_add_sum {G : Type} [AddCommMonoid G] :
    ∀ (bits : List Bool) (q r : G),
      mulBitsAux (groupOps G) q r bits =
        r + ∑ i ∈ Finset.range bits.length,
          (if bits.getD i false then 2 ^ i • q else 0) := by
  intro bits
  induction bits with
  | nil => intro q r; simp [mulBitsAux]
  | cons b bs ih =>
    intro q r
    have hstep : ∀ i : Nat, (if bs.getD i false then 2 ^ i • (q + q) else (0 : G)) =
        (if bs.getD i false then 2 ^ (i + 1) • q else 0) := by
      intro i
      by_cases hb : bs.getD i false
      · rw [if_pos hb, if_pos hb, pow_succ, mul_smul, two_smul]
      · rw [if_neg hb, if_neg hb]
    have hunfold : mulBitsAux (groupOps G) q r (b :: bs) =
        mulBitsAux (groupOps G) (q + q) (if b then r + q else r) bs := rfl
    rw [hunfold, ih]
    have hsum : (∑ i ∈ Finset.range bs.length,
          if bs.getD i false then 2 ^ i • (q + q) else (0 : G)) =
        ∑ i ∈ Finset.range bs.length,
          if bs.getD i false then 2 ^ (i + 1) • q else (0 : G) :=
      Finset.sum_congr rfl (fun i _ => hstep i)
    rw [hsum, List.length_cons, Finset.sum_range_succ']
    simp only [List.getD_cons_succ, List.getD_cons_zero, pow_zero, one_smul]
    cases b
    · rw [if_neg (by simp), if_neg (by simp), add_zero]
    · rw [if_pos (by simp), if_pos (by simp), add_assoc, add_comm q]

/-- Truncating each list to the other's length does not change their
zip. -/
theorem zip_take_eq {α β : Type} :
    ∀ (l₁ : List α) (l₂ : List β),
      (l₁.take l₂.length).zip (l₂.take l₁.length) = l₁.zip l₂ := by
  intro l₁
  induction l₁ with
  | nil => intro l₂; simp
  | cons a as ih =>
    intro l₂
    cases l₂ with
    | nil => simp
    | cons b bs => simp [List.zip_cons_cons, ih]

/-- Claim C1: on a prepared verifying key whose `gamma_abc_g1` sequence
is one longer than the public-input list, `conditional_verify_prepared`
accumulates `g_ic = gamma_abc_g1[0] + Σᵢ gamma_abc_g1[i+1].mul_bits(bits
of input i)`, runs `final_exponentiation(miller_loop([A, g_ic, C],
[B, -gamma, -delta]))`, and enforces the result equal to
`alpha_g1_beta_g2` gated by the condition — exactly these steps. -/
theorem groth16_conditional_verify_prepared_steps {G1 G2 GT G1P G2P : Type}
    (ops : PairingOps G1 G2 GT G1P G2P)
    (pvk : PreparedVerifyingKeyVar G1 GT G2P) (inputs : List (List Bool))
    (proof : ProofVar G1 G2) (condition : Bool)
    (h : pvk.gamma_abc_g1.length = inputs.length + 1) :
    conditionalVerifyPrepared ops pvk inputs proof condition =
      some ⟨ops.finalExp (ops.millerLoop
          [ops.prepareG1 proof.a,
           ops.prepareG1 (gIcSpec ops.g1 pvk.gamma_abc_g1 inputs),
           ops.prepareG1 proof.c]
          [ops.prepareG2 proof.b, pvk.gamma_g2_neg_pc, pvk.delta_g2_neg_pc]),
        pvk.alpha_g1_beta_g2, condition⟩ := by
  obtain ⟨ab, gneg, dneg, gammaAbc⟩ := pvk
  cases gammaAbc with
  | nil => simp at h
  | cons g0 rest =>
    have hlen : rest.length = inputs.length := by simpa using h
    unfold conditionalVerifyPrepared
    dsimp only
    rw [gIcLoop_eq ops.g1 rest inputs g0 1 hlen]
    simp [gIcSpec, hlen, Nat.add_comm]

/-- Concrete instance of claim C1's theorem: the example prepared key
expects one public input and is given one. -/
theorem groth16_conditional_verify_prepared_steps_witness :
    pvkEx.gamma_abc_g1.length = [[true]].length + 1 ∧
    conditionalVerifyPrepared intPairingOps pvkEx [[true]] proofEx true =
      some ⟨intPairingOps.finalExp (intPairingOps.millerLoop
          [intPairingOps.prepareG1 proofEx.a,
           intPairingOps.prepareG1 (gIcSpec intPairingOps.g1 pvkEx.gamma_abc_g1 [[true]]),
           intPairingOps.prepareG1 proofEx.c]
          [intPairingOps.prepareG2 proofEx.b, pvkEx.gamma_g2_neg_pc,
           pvkEx.delta_g2_neg_pc]),
        pvkEx.alpha_g1_beta_g2, true⟩ :=
  ⟨by decide,
   groth16_conditional_verify_prepared_steps intPairingOps pvkEx [[true]]
     proofEx true (by decide)⟩

/-- Claim C2: the input-length assertion in `conditional_verify_prepared`
is *not* equivalent to "number of inputs = len(gamma_abc_g1) - 1".
Because Rust's `zip` consumes (and drops) one element from the input
iterator when the key tail runs out first, supplying exactly
`len(gamma_abc_g1)` inputs — one too many — passes the assertion and
silently ignores the extra input: here a key expecting 1 input accepts
2, producing the same constraint as the 1-input call. -/
theorem groth16_assert_accepts_one_extra_input :
    pvkEx.gamma_abc_g1.length = 2 ∧
    (conditionalVerifyPrepared intPairingOps pvkEx [[true], [true]]
      proofEx true).isSome = true ∧
    conditionalVerifyPrepared intPairingOps pvkEx [[true], [true]] proofEx true =
      conditionalVerifyPrepared intPairingOps pvkEx [[true]] proofEx true := by
  decide

/-- Claim C3: `verify` is `conditional_verify` with the condition fixed
to the constant true, and `conditional_verify` is
`conditional_verify_prepared` on `vk.prepare()`. -/
theorem groth16_verify_delegation {G1 G2 GT G1P G2P : Type}
    (ops : PairingOps G1 G2 GT G1P G2P) (vk : VerifyingKeyVar G1 G2)
    (inputs : List (List Bool)) (proof : ProofVar G1 G2) (condition : Bool) :
    verify ops vk inputs proof = conditionalVerify ops vk inputs proof true ∧
    conditionalVerify ops vk inputs proof condition =
      conditionalVerifyPrepared ops (prepare ops vk) inputs proof condition :=
  ⟨rfl, rfl⟩

/-- Claim C4: under the group interpretation of the curve-variable
operations, `mul_bits` on a little-endian bit sequence equals the
double-and-add reference result `Σ_{i : bits i} 2^i • p`. -/
theorem mul_bits_double_and_add {G : Type} [AddCommMonoid G] (p : G)
    (bits : List Bool) :
    mulBits (groupOps G) p bits = doubleAddRef p bits := by
  unfold mulBits doubleAddRef
  rw [mulBitsAux_eq_add_sum]
  have h0 : (groupOps G).zero = (0 : G) := rfl
  rw [h0, zero_add]

/-- Claim C5 counterexample: `precomputed_base_multiscalar_mul` does not
fail on a window/table count mismatch.  With one scalar bit-window and
zero base tables it returns the zero point, and with one base table and
two scalar windows it returns the same point as with one window: the
mismatch proceeds silently instead of failing by assertion. -/
theorem multiscalar_mul_mismatch_returns_point :
    precomputedBaseMultiscalarMul intCurveOps [] [[true]] = 0 ∧
    precomputedBaseMultiscalarMul intCurveOps [[1]] [[true], [true]] =
      precomputedBaseMultiscalarMul intCurveOps [[1]] [[true]] := by
  decide

/-- Claim C5 as amended: the Pedersen CRH `evaluate` does fail fast
(assertion, before any constraint is generated) when the generator-table
count differs from `NUM_WINDOWS`, and likewise when the padded input's
bit-length differs from `WINDOW_SIZE * NUM_WINDOWS`; but
`precomputed_base_multiscalar_mul` itself performs no size check:
mismatched counts of bit-windows and base tables are silently truncated
to the shorter sequence by `zip`. -/
theorem window_table_mismatch_policy :
    (∀ (G : Type) (ops : CurveOps G) (windowSize numWindows : Nat)
       (generators : List (List G)) (input : List (List Bool)),
       generators.length ≠ numWindows →
       pedersenEvaluate windowSize numWindows ops generators input = none) ∧
    (∀ (G : Type) (ops : CurveOps G) (windowSize numWindows : Nat)
       (generators : List (List G)) (input : List (List Bool)),
       (if input.length * 8 < windowSize * numWindows then
          input ++ List.replicate (windowSize * numWindows / 8 - input.length)
            (List.replicate 8 false)
        else input).length * 8 ≠ windowSize * numWindows →
       pedersenEvaluate windowSize numWindows ops generators input = none) ∧
    (∀ (G : Type) (ops : CurveOps G) (bases : List (List G))
       (scalars : List (List Bool)),
       precomputedBaseMultiscalarMul ops bases scalars =
         precomputedBaseMultiscalarMul ops (bases.take scalars.length)
           (scalars.take bases.length)) := by
  refine ⟨?_, ?_, ?_⟩
  · intro G ops ws nw gens input h
    have hb : (gens.length == nw) = false := by simpa using h
    unfold pedersenEvaluate
    simp [hb]
  · intro G ops ws nw gens input h
    have hb : ((if input.length * 8 < ws * nw then
          input ++ List.replicate (ws * nw / 8 - input.length)
            (List.replicate 8 false)
        else input).length * 8 == ws * nw) = false := by simpa using h
    unfold pedersenEvaluate
    dsimp only
    rw [hb]
    simp
  · intro G ops bases scalars
    unfold precomputedBaseMultiscalarMul
    rw [zip_take_eq]

/-- Concrete instances of claim C5's amended theorem: zero generator
tables against one declared window makes `evaluate` fail, and so does a
window geometry whose total bit count (3 * 3 = 9) is not reachable by
whole padding bytes, even with the generator count right. -/
theorem window_table_mismatch_policy_witness :
    (([] : List (List Int)).length ≠ 1 ∧
     pedersenEvaluate 4 1 intCurveOps [] [] = none) ∧
    ((if ([] : List (List Bool)).length * 8 < 3 * 3 then
        ([] : List (List Bool)) ++ List.replicate (3 * 3 / 8 - ([] : List (List Bool)).length)
          (List.replicate 8 false)
      else []).length * 8 ≠ 3 * 3 ∧
     pedersenEvaluate 3 3 intCurveOps [[], [], []] [] = none) :=
  ⟨⟨by decide, window_table_mismatch_policy.1 Int intCurveOps 4 1 [] [] (by decide)⟩,
   ⟨by decide,
    window_table_mismatch_policy.2.1 Int intCurveOps 3 3 [[], [], []] [] (by decide)⟩⟩

/-- Claim C6: `prepare` returns exactly
`{pairing(prepare_g1 alpha, prepare_g2 beta), prepare_g2(-gamma),
prepare_g2(-delta), gamma_abc_g1}`, and one `prepare` call performs the
pairing precomputation once, one G1-preparation, two negations and
three G2-preparations — each exactly once where the key needs it. -/
theorem prepare_fields_and_precomputation_counts {G1 G2 GT G1P G2P : Type}
    (ops : PairingOps G1 G2 GT G1P G2P) (vk : VerifyingKeyVar G1 G2) :
    prepare ops vk =
      ⟨pairing ops (ops.prepareG1 vk.alpha_g1) (ops.prepareG2 vk.beta_g2),
       ops.prepareG2 (ops.g2Neg vk.gamma_g2),
       ops.prepareG2 (ops.g2Neg vk.delta_g2),
       vk.gamma_abc_g1⟩ ∧
    (prepareM ops vk []).1 = prepare ops vk ∧
    (prepareM ops vk []).2.count OpEvent.pairingOp = 1 ∧
    (prepareM ops vk []).2.count OpEvent.prepG1 = 1 ∧
    (prepareM ops vk []).2.count OpEvent.negOp = 2 ∧
    (prepareM ops vk []).2.count OpEvent.prepG2 = 3 :=
  ⟨rfl, rfl, rfl, rfl, rfl, rfl⟩

/-- Claim C7: preparation is deterministic — two prepared keys obtained
by preparing the same verifying key are equal as values, and every
subsequent `conditional_verify_prepared` call behaves identically on
either of them. -/
theorem prepare_deterministic {G1 G2 GT G1P G2P : Type}
    (ops : PairingOps G1 G2 GT G1P G2P) (vk : VerifyingKeyVar G1 G2)
    (pvk₁ pvk₂ : PreparedVerifyingKeyVar G1 GT G2P)
    (h₁ : pvk₁ = prepare ops vk) (h₂ : pvk₂ = prepare ops vk) :
    pvk₁ = pvk₂ ∧
    ∀ (inputs : List (List Bool)) (proof : ProofVar G1 G2) (condition : Bool),
      conditionalVerifyPrepared ops pvk₁ inputs proof condition =
        conditionalVerifyPrepared ops pvk₂ inputs proof condition := by
  subst h₁; subst h₂
  exact ⟨rfl, fun _ _ _ => rfl⟩

/-- Concrete instance of claim C7's theorem on the example key. -/
theorem prepare_deterministic_witness :
    (pvkEx = prepare intPairingOps vkEx ∧ pvkEx = prepare intPairingOps vkEx) ∧
    conditionalVerifyPrepared intPairingOps pvkEx [[true]] proofEx true =
      conditionalVerifyPrepared intPairingOps pvkEx [[true]] proofEx true :=
  ⟨⟨rfl, rfl⟩,
   (prepare_deterministic intPairingOps vkEx pvkEx pvkEx rfl rfl).2
     [[true]] proofEx true⟩

/-- Claim C8: the default implementation of
`precomputed_base_3_bit_signed_digit_scalar_mul` returns
`Err(SynthesisError::AssignmentMissing)` on every input and never
returns a point. -/
theorem signed_digit_default_always_errors (G : Type)
    (bases : List (List G)) (scalars : List (List (List Bool))) :
    precomputedBase3BitSignedDigitScalarMul G bases scalars =
      Except.error SynthesisError.assignmentMissing :=
  rfl

/-- Claim C9: `is_constant` returns true exactly when the value's `cs()`
query returns no handle or returns the distinguished "no system"
sentinel. -/
theorem is_constant_iff_no_handle_or_sentinel (o : Option ConstraintSystemRef) :
    is_constant o = true ↔
      o = Option.none ∨ o = Option.some ConstraintSystemRef.noSystem := by
  cases o with
  | none => simp [is_constant]
  | some c => cases c <;> simp [is_constant]

/-- Claim C10: `mul_bits` on the empty bit sequence returns the zero
variable, and `precomputed_base_scalar_mul` on an empty iterator
returns its receiver unchanged — for every interpretation of the curve
operations, so no addition, selection or doubling is performed and no
constraint is emitted. -/
theorem empty_bits_frame {G : Type} (ops : CurveOps G) (p s : G) :
    mulBits ops p [] = ops.zero ∧ precomputedBaseScalarMul ops s [] = s :=
  ⟨rfl, rfl⟩

end Zexe
